import Mathlib

/-!
Shallow embedding of the chip-8 emulator core: `cpu.rs`, `ram.rs`, `timer.rs`,
`screen.rs`, `keyboard.rs`.

Machine integers are modelled as `Nat` with an explicit `% 2 ^ w` at every
point where the Rust code wraps (`u8`/`u16` arithmetic compiled in release
mode); Rust panics (out-of-bounds indexing, `unwrap` on an empty vector,
`unreachable!`) are modelled as `none`.  Real time (`std::time::Instant`) is
out of the model: the elapsed milliseconds consumed by `Timer::get_delay` are
passed in explicitly, and the pseudo-random byte of opcode `Cxnn` is an
explicit input `rand`.

The repository's `consts.rs` module is not available; the few constants the
core needs from it (`SCREEN_WIDTH`/`SCREEN_HEIGHT`, `RAM_ROM_START_ADDRESS`,
`RAM_DIGIT_SPRITES`) are modelled from the spec, as noted on each definition.
-/

/-- Memory size of `Ram`: `memory: [u8; 4096]` in `ram.rs`. -/
def RAM_SIZE : Nat := 4096

/-- Modelled from the spec: `consts::RAM_ROM_START_ADDRESS` lives in the
missing `consts` module; the spec (§3) and the `ram.rs` doc comment fix the
program origin and the initial program counter at `0x200`. -/
def RAM_ROM_START_ADDRESS : Nat := 0x200

/-- `ram.rs`: `Ram` stores 4096 bytes.  The array is modelled as a total
function; the Rust bounds check of array indexing lives in `read`/`write`. -/
structure Ram where
  mem : Nat → Nat

/-- `Ram::read`: `self.memory[address as usize]`.  Indexing out of bounds
panics, modelled as `none`. -/
def Ram.read (r : Ram) (address : Nat) : Option Nat :=
  if address < RAM_SIZE then some (r.mem address) else none

/-- `Ram::write`: `self.memory[address as usize] = value`. -/
def Ram.write (r : Ram) (address value : Nat) : Option Ram :=
  if address < RAM_SIZE then
    some ⟨fun a => if a = address then value else r.mem a⟩
  else none

/-- `Ram::new`: all-zero memory. -/
def Ram.new : Ram := ⟨fun _ => 0⟩

/-- The write loop shared by `Ram::load_rom`: consecutive writes of the given
bytes starting at `start`. -/
def loadBytes (r : Ram) (start : Nat) : List Nat → Option Ram
  | [] => some r
  | b :: rest =>
    match Ram.write r start b with
    | none => none
    | some r2 => loadBytes r2 (start + 1) rest

/-- `Ram::load_rom`: copies the ROM bytes into memory starting at
`consts::RAM_ROM_START_ADDRESS`. -/
def Ram.load_rom (r : Ram) (data : List Nat) : Option Ram :=
  loadBytes r RAM_ROM_START_ADDRESS data

/-- `timer.rs`: only the stored 8-bit delay is state; the real set-timestamp
is modelled by passing the elapsed milliseconds to `get_delay` explicitly. -/
structure Timer where
  delay : Nat

/-- `Timer::get_delay` with the elapsed milliseconds since the set-point as an
explicit input.  `ticks = elapsed_ms / 16`; the `unreachable!()` arm behind the
failed `u8::try_from(ticks)` conversion is modelled as `none`. -/
def Timer.get_delay (t : Timer) (elapsedMs : Nat) : Option Nat :=
  let ticks := elapsedMs / 16
  if t.delay ≤ ticks then some 0
  else if ticks < 256 then some (t.delay - ticks)
  else none

/-- `Timer::set_delay`: stores the value (and in the source resets the real
set-timestamp, which is modelled by the per-call `elapsedMs` input). -/
def Timer.set_delay (_t : Timer) (delay : Nat) : Timer := ⟨delay⟩

/-- `Timer::new`. -/
def Timer.new : Timer := ⟨0⟩

/-- `keyboard.rs`: the single latched key code.  The press timestamp only
gates `reset_pressed_key`, which the CPU never calls, so it is not modelled. -/
structure Keyboard where
  pressed_key_code : Option Nat

/-- `Keyboard::is_key_pressed`. -/
def Keyboard.is_key_pressed (kb : Keyboard) (code : Nat) : Bool :=
  kb.pressed_key_code == some code

/-- `screen.rs`: the pixel buffer, indexed `y * SCREEN_WIDTH + x`.  Modelled
from the spec where the source needs the missing `consts` module: the display
width `W` and height `H` are parameters of every screen operation. -/
structure Screen where
  buffer : Nat → Nat

/-- `Screen::new`. -/
def Screen.new : Screen := ⟨fun _ => 0⟩

/-- `Screen::clear`: sets every pixel to `0`. -/
def Screen.clear (_s : Screen) : Screen := ⟨fun _ => 0⟩

/-- The 8-iteration loop body of `Screen::draw_byte`, one recursion step per
remaining iteration: `x %= W`; XOR the top bit of `byte` into the pixel at
`row * W + x % W`; record an erasure when a set pixel is cleared; then
`x += 1` and `byte <<= 1` (a `u8` shift, hence `% 256`). -/
def drawByteLoop (W row : Nat) :
    Nat → (Nat → Nat) → Nat → Nat → Bool → ((Nat → Nat) × Bool)
  | 0, buf, _x, _byte, er => (buf, er)
  | k + 1, buf, x, byte, er =>
    let x2 := x % W
    let idx := row * W + x2
    let prev := buf idx
    let bit := (byte &&& 128) >>> 7
    let cur := prev ^^^ bit
    drawByteLoop W row k (fun a => if a = idx then cur else buf a) (x2 + 1)
      ((byte <<< 1) % 256) (if prev = 1 ∧ cur = 0 then true else er)

/-- `Screen::draw_byte`: wraps `y` by the display height once, then runs the
8-bit loop.  Returns the new buffer and the `is_erased` flag. -/
def Screen.draw_byte (W H : Nat) (s : Screen) (byte x y : Nat) : Screen × Bool :=
  let res := drawByteLoop W (y % H) 8 s.buffer x byte false
  (⟨res.1⟩, res.2)

/-- The XOR mask accumulated by `drawByteLoop` over `k` iterations, as a
function of the pixel index.  Iteration `j` XORs the current top bit of the
(shifted) byte into index `row * W + (x + j) % W`; this definition follows the
same recursion as the loop. -/
def drawAcc (W row : Nat) : Nat → Nat → Nat → Nat → Nat
  | _x, _byte, 0, _a => 0
  | x, byte, k + 1, a =>
    (if a = row * W + x % W then (byte &&& 128) >>> 7 else 0) ^^^
      drawAcc W row (x % W + 1) ((byte <<< 1) % 256) k a

/-- `cpu.rs`: registers `v0..vF`, the address register `i`, the program
counter and the return stack (head of the list = top of the Rust `Vec`). -/
structure Cpu where
  v : Nat → Nat
  i : Nat
  pc : Nat
  return_stack : List Nat

/-- `Cpu::new` (the rng and the last-instruction timestamp are out of the
model). -/
def Cpu.new : Cpu := ⟨fun _ => 0, 0, RAM_ROM_START_ADDRESS, []⟩

/-- The result of one successful `Cpu::run_instruction` call: the four
mutated components. -/
structure Outcome where
  cpu : Cpu
  ram : Ram
  timer : Timer
  screen : Screen

/-- The row loop of `Cpu::draw_sprite`: for `sprite_i in 0..length`, read the
sprite byte at `i + sprite_i` (a failed read panics, hence `none`), draw it at
`(x, y + sprite_i)` (a `u8` addition, hence `% 256`), and OR together the
per-row `is_erased` flags. -/
def drawRows (W H : Nat) (ram : Ram) (i x y : Nat) (buf : Nat → Nat) :
    Nat → Option ((Nat → Nat) × Bool)
  | 0 => some (buf, false)
  | k + 1 =>
    match drawRows W H ram i x y buf k with
    | none => none
    | some res =>
      match Ram.read ram ((i + k) % 65536) with
      | none => none
      | some byte =>
        let res2 := Screen.draw_byte W H ⟨res.1⟩ byte x ((y + k) % 256)
        some (res2.1.buffer, res.2 || res2.2)

/-- The `Fx55` loop: `for i in 0..=x { ram.write(self.i + i, self.v[i]) }`,
called with `cnt = x + 1`.  The address addition is `u16`, hence `% 65536`. -/
def storeRegs (v : Nat → Nat) (i : Nat) (r : Ram) : Nat → Option Ram
  | 0 => some r
  | k + 1 =>
    match storeRegs v i r k with
    | none => none
    | some r2 => Ram.write r2 ((i + k) % 65536) (v k)

/-- The `Fx65` loop: `for i in 0..=x { self.v[i] = ram.read(self.i + i) }`,
called with `cnt = x + 1`. -/
def loadRegs (i : Nat) (r : Ram) (v : Nat → Nat) : Nat → Option (Nat → Nat)
  | 0 => some v
  | k + 1 =>
    match loadRegs i r v k with
    | none => none
    | some v2 =>
      match Ram.read r ((i + k) % 65536) with
      | none => none
      | some b => some (fun a => if a = k then b else v2 a)

/-! Each arm of the `match` in `Cpu::run_instruction` is its own definition,
taking the decoded operand fields it uses plus the four mutable components;
`Cpu.exec` below is the dispatch itself, with the arms in source order. -/

/-- `00E0`: clear the screen. -/
def armClear (cpu : Cpu) (ram : Ram) (timer : Timer) (_screen : Screen) : Option Outcome :=
  some ⟨{ cpu with pc := (cpu.pc + 2) % 65536 }, ram, timer, Screen.clear _screen⟩

/-- `00EE`: return from a subroutine; `pop().unwrap()` on an empty stack
panics, hence `none`. -/
def armReturn (cpu : Cpu) (ram : Ram) (timer : Timer) (screen : Screen) : Option Outcome :=
  match cpu.return_stack with
  | [] => none
  | top :: rest => some ⟨{ cpu with pc := top, return_stack := rest }, ram, timer, screen⟩

/-- `1nnn`: jump. -/
def armJump (nnn : Nat) (cpu : Cpu) (ram : Ram) (timer : Timer) (screen : Screen) : Option Outcome :=
  some ⟨{ cpu with pc := nnn }, ram, timer, screen⟩

/-- `2nnn`: call. -/
def armCall (nnn : Nat) (cpu : Cpu) (ram : Ram) (timer : Timer) (screen : Screen) : Option Outcome :=
  some ⟨{ cpu with pc := nnn, return_stack := (cpu.pc + 2) % 65536 :: cpu.return_stack }, ram, timer, screen⟩

/-- `3xnn`: skip if `vx = nn`. -/
def armSkipEqImm (x nn : Nat) (cpu : Cpu) (ram : Ram) (timer : Timer) (screen : Screen) : Option Outcome :=
  some ⟨{ cpu with pc := if cpu.v x = nn then (cpu.pc + 4) % 65536 else (cpu.pc + 2) % 65536 }, ram, timer, screen⟩

/-- `4xnn`: skip if `vx ≠ nn`. -/
def armSkipNeImm (x nn : Nat) (cpu : Cpu) (ram : Ram) (timer : Timer) (screen : Screen) : Option Outcome :=
  some ⟨{ cpu with pc := if cpu.v x = nn then (cpu.pc + 2) % 65536 else (cpu.pc + 4) % 65536 }, ram, timer, screen⟩

/-- `5xy0`: skip if `vx = vy`. -/
def armSkipEqReg (x y : Nat) (cpu : Cpu) (ram : Ram) (timer : Timer) (screen : Screen) : Option Outcome :=
  some ⟨{ cpu with pc := if cpu.v x = cpu.v y then (cpu.pc + 4) % 65536 else (cpu.pc + 2) % 65536 }, ram, timer, screen⟩

/-- `6xnn`: `vx := nn`. -/
def armSetImm (x nn : Nat) (cpu : Cpu) (ram : Ram) (timer : Timer) (screen : Screen) : Option Outcome :=
  some ⟨{ cpu with v := fun a => if a = x then nn else cpu.v a, pc := (cpu.pc + 2) % 65536 }, ram, timer, screen⟩

/-- `7xnn`: `vx := vx.wrapping_add(nn)`. -/
def armAddImm (x nn : Nat) (cpu : Cpu) (ram : Ram) (timer : Timer) (screen : Screen) : Option Outcome :=
  some ⟨{ cpu with v := fun a => if a = x then (cpu.v x + nn) % 256 else cpu.v a, pc := (cpu.pc + 2) % 65536 }, ram, timer, screen⟩

/-- `8xy0`: `vx := vy`. -/
def armMov (x y : Nat) (cpu : Cpu) (ram : Ram) (timer : Timer) (screen : Screen) : Option Outcome :=
  some ⟨{ cpu with v := fun a => if a = x then cpu.v y else cpu.v a, pc := (cpu.pc + 2) % 65536 }, ram, timer, screen⟩

/-- `8xy1`: `vx := vx OR vy`. -/
def armOr (x y : Nat) (cpu : Cpu) (ram : Ram) (timer : Timer) (screen : Screen) : Option Outcome :=
  some ⟨{ cpu with v := fun a => if a = x then cpu.v x ||| cpu.v y else cpu.v a, pc := (cpu.pc + 2) % 65536 }, ram, timer, screen⟩

/-- `8xy2`: `vx := vx AND vy`. -/
def armAnd (x y : Nat) (cpu : Cpu) (ram : Ram) (timer : Timer) (screen : Screen) : Option Outcome :=
  some ⟨{ cpu with v := fun a => if a = x then cpu.v x &&& cpu.v y else cpu.v a, pc := (cpu.pc + 2) % 65536 }, ram, timer, screen⟩

/-- `8xy3`: `vx := vx XOR vy`. -/
def armXor (x y : Nat) (cpu : Cpu) (ram : Ram) (timer : Timer) (screen : Screen) : Option Outcome :=
  some ⟨{ cpu with v := fun a => if a = x then cpu.v x ^^^ cpu.v y else cpu.v a, pc := (cpu.pc + 2) % 65536 }, ram, timer, screen⟩

/-- `8xy4`: add with carry.  `overflowing_add` on `u8` stores the wrapped sum
first and then the overflow bit into `vF`. -/
def armAddCarry (x y : Nat) (cpu : Cpu) (ram : Ram) (timer : Timer) (screen : Screen) : Option Outcome :=
  let sum := (cpu.v x + cpu.v y) % 256
  let vf : Nat := if 256 ≤ cpu.v x + cpu.v y then 1 else 0
  let v1 : Nat → Nat := fun a => if a = x then sum else cpu.v a
  let v2 : Nat → Nat := fun a => if a = 15 then vf else v1 a
  some ⟨{ cpu with v := v2, pc := (cpu.pc + 2) % 65536 }, ram, timer, screen⟩

/-- `8xy5`: `vx := vx - vy`, `vF := NOT borrow`.  `overflowing_sub` on `u8`
wraps to `(vx + 256 - vy) % 256` and borrows exactly when `vx < vy`. -/
def armSub (x y : Nat) (cpu : Cpu) (ram : Ram) (timer : Timer) (screen : Screen) : Option Outcome :=
  let diff := (cpu.v x + 256 - cpu.v y) % 256
  let vf : Nat := if cpu.v y ≤ cpu.v x then 1 else 0
  let v1 : Nat → Nat := fun a => if a = x then diff else cpu.v a
  let v2 : Nat → Nat := fun a => if a = 15 then vf else v1 a
  some ⟨{ cpu with v := v2, pc := (cpu.pc + 2) % 65536 }, ram, timer, screen⟩

/-- `8xy6`: `vF := vx AND 1` first, then `vx := vx >> 1` (reading the current
`vx`, which the first write may have changed when `x = 15`). -/
def armShr (x : Nat) (cpu : Cpu) (ram : Ram) (timer : Timer) (screen : Screen) : Option Outcome :=
  let v1 : Nat → Nat := fun a => if a = 15 then cpu.v x &&& 1 else cpu.v a
  let v2 : Nat → Nat := fun a => if a = x then v1 x >>> 1 else v1 a
  some ⟨{ cpu with v := v2, pc := (cpu.pc + 2) % 65536 }, ram, timer, screen⟩

/-- `8xy7`: `vx := vy - vx`, `vF := NOT borrow`. -/
def armSubRev (x y : Nat) (cpu : Cpu) (ram : Ram) (timer : Timer) (screen : Screen) : Option Outcome :=
  let diff := (cpu.v y + 256 - cpu.v x) % 256
  let vf : Nat := if cpu.v x ≤ cpu.v y then 1 else 0
  let v1 : Nat → Nat := fun a => if a = x then diff else cpu.v a
  let v2 : Nat → Nat := fun a => if a = 15 then vf else v1 a
  some ⟨{ cpu with v := v2, pc := (cpu.pc + 2) % 65536 }, ram, timer, screen⟩

/-- `8xyE`: `vF := (vx AND 0x80) >> 7` first, then `vx := vx << 1` (a `u8`
shift, hence `% 256`; again reading the current `vx`). -/
def armShl (x : Nat) (cpu : Cpu) (ram : Ram) (timer : Timer) (screen : Screen) : Option Outcome :=
  let v1 : Nat → Nat := fun a => if a = 15 then (cpu.v x &&& 128) >>> 7 else cpu.v a
  let v2 : Nat → Nat := fun a => if a = x then (v1 x <<< 1) % 256 else v1 a
  some ⟨{ cpu with v := v2, pc := (cpu.pc + 2) % 65536 }, ram, timer, screen⟩

/-- `9xy0`: skip if `vx ≠ vy`. -/
def armSkipNeReg (x y : Nat) (cpu : Cpu) (ram : Ram) (timer : Timer) (screen : Screen) : Option Outcome :=
  some ⟨{ cpu with pc := if cpu.v x = cpu.v y then (cpu.pc + 2) % 65536 else (cpu.pc + 4) % 65536 }, ram, timer, screen⟩

/-- `Annn`: `i := nnn`. -/
def armSetI (nnn : Nat) (cpu : Cpu) (ram : Ram) (timer : Timer) (screen : Screen) : Option Outcome :=
  some ⟨{ cpu with i := nnn, pc := (cpu.pc + 2) % 65536 }, ram, timer, screen⟩

/-- `Bnnn`: jump to `nnn + v0` (`u16` addition). -/
def armJumpV0 (nnn : Nat) (cpu : Cpu) (ram : Ram) (timer : Timer) (screen : Screen) : Option Outcome :=
  some ⟨{ cpu with pc := (nnn + cpu.v 0) % 65536 }, ram, timer, screen⟩

/-- `Cxnn`: `vx := random byte AND nn`; the generated `u8` is the input
`rand`. -/
def armRand (x nn rand : Nat) (cpu : Cpu) (ram : Ram) (timer : Timer) (screen : Screen) : Option Outcome :=
  some ⟨{ cpu with v := fun a => if a = x then (rand % 256) &&& nn else cpu.v a, pc := (cpu.pc + 2) % 65536 }, ram, timer, screen⟩

/-- `Dxyn`: `draw_sprite(vx, vy, n)` then advance. -/
def armDraw (W H x y n : Nat) (cpu : Cpu) (ram : Ram) (timer : Timer) (screen : Screen) : Option Outcome :=
  match drawRows W H ram cpu.i (cpu.v x) (cpu.v y) screen.buffer n with
  | none => none
  | some res =>
    some ⟨{ cpu with v := fun a => if a = 15 then (if res.2 then 1 else 0) else cpu.v a, pc := (cpu.pc + 2) % 65536 }, ram, timer, ⟨res.1⟩⟩

/-- `Ex9E`: skip if the `vx` key is pressed. -/
def armSkipKey (x : Nat) (kb : Keyboard) (cpu : Cpu) (ram : Ram) (timer : Timer) (screen : Screen) : Option Outcome :=
  some ⟨{ cpu with pc := if Keyboard.is_key_pressed kb (cpu.v x) then (cpu.pc + 4) % 65536 else (cpu.pc + 2) % 65536 }, ram, timer, screen⟩

/-- `ExA1`: skip if the `vx` key is not pressed. -/
def armSkipNoKey (x : Nat) (kb : Keyboard) (cpu : Cpu) (ram : Ram) (timer : Timer) (screen : Screen) : Option Outcome :=
  some ⟨{ cpu with pc := if Keyboard.is_key_pressed kb (cpu.v x) then (cpu.pc + 2) % 65536 else (cpu.pc + 4) % 65536 }, ram, timer, screen⟩

/-- `Fx07`: `vx := delay timer value`. -/
def armGetDelay (x elapsedMs : Nat) (cpu : Cpu) (ram : Ram) (timer : Timer) (screen : Screen) : Option Outcome :=
  match Timer.get_delay timer elapsedMs with
  | none => none
  | some d => some ⟨{ cpu with v := fun a => if a = x then d else cpu.v a, pc := (cpu.pc + 2) % 65536 }, ram, timer, screen⟩

/-- `Fx0A`: if a key code is latched, store it in `vx` and advance; otherwise
change nothing (the same instruction is fetched again next step). -/
def armWaitKey (x : Nat) (kb : Keyboard) (cpu : Cpu) (ram : Ram) (timer : Timer) (screen : Screen) : Option Outcome :=
  match kb.pressed_key_code with
  | some code => some ⟨{ cpu with v := fun a => if a = x then code else cpu.v a, pc := (cpu.pc + 2) % 65536 }, ram, timer, screen⟩
  | none => some ⟨cpu, ram, timer, screen⟩

/-- `Fx15`: set the delay timer from `vx`. -/
def armSetDelay (x : Nat) (cpu : Cpu) (ram : Ram) (timer : Timer) (screen : Screen) : Option Outcome :=
  some ⟨{ cpu with pc := (cpu.pc + 2) % 65536 }, ram, Timer.set_delay timer (cpu.v x), screen⟩

/-- `Fx18`: sound timer write, no effect beyond the PC advance. -/
def armSound (cpu : Cpu) (ram : Ram) (timer : Timer) (screen : Screen) : Option Outcome :=
  some ⟨{ cpu with pc := (cpu.pc + 2) % 65536 }, ram, timer, screen⟩

/-- `Fx1E`: `i := i + vx` (`u16` addition, unmasked). -/
def armAddI (x : Nat) (cpu : Cpu) (ram : Ram) (timer : Timer) (screen : Screen) : Option Outcome :=
  some ⟨{ cpu with i := (cpu.i + cpu.v x) % 65536, pc := (cpu.pc + 2) % 65536 }, ram, timer, screen⟩

/-- `Fx29`: `i := vx * 5`, the glyph offset of digit `vx`. -/
def armSpriteAddr (x : Nat) (cpu : Cpu) (ram : Ram) (timer : Timer) (screen : Screen) : Option Outcome :=
  some ⟨{ cpu with i := (cpu.v x * 5) % 65536, pc := (cpu.pc + 2) % 65536 }, ram, timer, screen⟩

/-- `Fx33`: BCD of `vx` into `i`, `i + 1`, `i + 2`. -/
def armBcd (x : Nat) (cpu : Cpu) (ram : Ram) (timer : Timer) (screen : Screen) : Option Outcome :=
  match Ram.write ram cpu.i (cpu.v x / 100) with
  | none => none
  | some r1 =>
    match Ram.write r1 ((cpu.i + 1) % 65536) (cpu.v x % 100 / 10) with
    | none => none
    | some r2 =>
      match Ram.write r2 ((cpu.i + 2) % 65536) (cpu.v x % 10) with
      | none => none
      | some r3 => some ⟨{ cpu with pc := (cpu.pc + 2) % 65536 }, r3, timer, screen⟩

/-- `Fx55`: store `v0..=vx` at `i..`. -/
def armStore (x : Nat) (cpu : Cpu) (ram : Ram) (timer : Timer) (screen : Screen) : Option Outcome :=
  match storeRegs cpu.v cpu.i ram (x + 1) with
  | none => none
  | some r2 => some ⟨{ cpu with pc := (cpu.pc + 2) % 65536 }, r2, timer, screen⟩

/-- `Fx65`: load `v0..=vx` from `i..`. -/
def armLoad (x : Nat) (cpu : Cpu) (ram : Ram) (timer : Timer) (screen : Screen) : Option Outcome :=
  match loadRegs cpu.i ram cpu.v (x + 1) with
  | none => none
  | some v2 => some ⟨{ cpu with v := v2, pc := (cpu.pc + 2) % 65536 }, ram, timer, screen⟩

/-- The dispatch of `Cpu::run_instruction` after the fetch: the `match` on
`((instruction & 0xF000) >> 12, nn, n)`, one `if` per arm, in source order,
with the decoded operand fields (`nnn = instr % 4096`, `nn = instr % 256`,
`n = instr % 16`, `x = instr / 256 % 16`, `y = instr / 16 % 16`, family
`instr / 4096`) inlined.  The catch-all `unreachable!()` arm is `none`. -/
def Cpu.exec (W H instr : Nat) (cpu : Cpu) (ram : Ram) (timer : Timer)
    (screen : Screen) (kb : Keyboard) (rand elapsedMs : Nat) : Option Outcome :=
  if instr / 4096 = 0 ∧ instr % 256 = 0xE0 then armClear cpu ram timer screen
  else if instr / 4096 = 0 ∧ instr % 256 = 0xEE then armReturn cpu ram timer screen
  else if instr / 4096 = 1 then armJump (instr % 4096) cpu ram timer screen
  else if instr / 4096 = 2 then armCall (instr % 4096) cpu ram timer screen
  else if instr / 4096 = 3 then armSkipEqImm (instr / 256 % 16) (instr % 256) cpu ram timer screen
  else if instr / 4096 = 4 then armSkipNeImm (instr / 256 % 16) (instr % 256) cpu ram timer screen
  else if instr / 4096 = 5 ∧ instr % 16 = 0 then armSkipEqReg (instr / 256 % 16) (instr / 16 % 16) cpu ram timer screen
  else if instr / 4096 = 6 then armSetImm (instr / 256 % 16) (instr % 256) cpu ram timer screen
  else if instr / 4096 = 7 then armAddImm (instr / 256 % 16) (instr % 256) cpu ram timer screen
  else if instr / 4096 = 8 ∧ instr % 16 = 0 then armMov (instr / 256 % 16) (instr / 16 % 16) cpu ram timer screen
  else if instr / 4096 = 8 ∧ instr % 16 = 1 then armOr (instr / 256 % 16) (instr / 16 % 16) cpu ram timer screen
  else if instr / 4096 = 8 ∧ instr % 16 = 2 then armAnd (instr / 256 % 16) (instr / 16 % 16) cpu ram timer screen
  else if instr / 4096 = 8 ∧ instr % 16 = 3 then armXor (instr / 256 % 16) (instr / 16 % 16) cpu ram timer screen
  else if instr / 4096 = 8 ∧ instr % 16 = 4 then armAddCarry (instr / 256 % 16) (instr / 16 % 16) cpu ram timer screen
  else if instr / 4096 = 8 ∧ instr % 16 = 5 then armSub (instr / 256 % 16) (instr / 16 % 16) cpu ram timer screen
  else if instr / 4096 = 8 ∧ instr % 16 = 6 then armShr (instr / 256 % 16) cpu ram timer screen
  else if instr / 4096 = 8 ∧ instr % 16 = 7 then armSubRev (instr / 256 % 16) (instr / 16 % 16) cpu ram timer screen
  else if instr / 4096 = 8 ∧ instr % 16 = 14 then armShl (instr / 256 % 16) cpu ram timer screen
  else if instr / 4096 = 9 ∧ instr % 16 = 0 then armSkipNeReg (instr / 256 % 16) (instr / 16 % 16) cpu ram timer screen
  else if instr / 4096 = 10 then armSetI (instr % 4096) cpu ram timer screen
  else if instr / 4096 = 11 then armJumpV0 (instr % 4096) cpu ram timer screen
  else if instr / 4096 = 12 then armRand (instr / 256 % 16) (instr % 256) rand cpu ram timer screen
  else if instr / 4096 = 13 then armDraw W H (instr / 256 % 16) (instr / 16 % 16) (instr % 16) cpu ram timer screen
  else if instr / 4096 = 14 ∧ instr % 256 = 0x9E then armSkipKey (instr / 256 % 16) kb cpu ram timer screen
  else if instr / 4096 = 14 ∧ instr % 256 = 0xA1 then armSkipNoKey (instr / 256 % 16) kb cpu ram timer screen
  else if instr / 4096 = 15 ∧ instr % 256 = 0x07 then armGetDelay (instr / 256 % 16) elapsedMs cpu ram timer screen
  else if instr / 4096 = 15 ∧ instr % 256 = 0x0A then armWaitKey (instr / 256 % 16) kb cpu ram timer screen
  else if instr / 4096 = 15 ∧ instr % 256 = 0x15 then armSetDelay (instr / 256 % 16) cpu ram timer screen
  else if instr / 4096 = 15 ∧ instr % 256 = 0x18 then armSound cpu ram timer screen
  else if instr / 4096 = 15 ∧ instr % 256 = 0x1E then armAddI (instr / 256 % 16) cpu ram timer screen
  else if instr / 4096 = 15 ∧ instr % 256 = 0x29 then armSpriteAddr (instr / 256 % 16) cpu ram timer screen
  else if instr / 4096 = 15 ∧ instr % 256 = 0x33 then armBcd (instr / 256 % 16) cpu ram timer screen
  else if instr / 4096 = 15 ∧ instr % 256 = 0x55 then armStore (instr / 256 % 16) cpu ram timer screen
  else if instr / 4096 = 15 ∧ instr % 256 = 0x65 then armLoad (instr / 256 % 16) cpu ram timer screen
  else none

/-- `Cpu::run_instruction`: big-endian fetch of the two bytes at the program
counter (each read panics out of bounds, hence `none`), then the dispatch. -/
def Cpu.run_instruction (W H : Nat) (cpu : Cpu) (ram : Ram) (timer : Timer)
    (screen : Screen) (kb : Keyboard) (rand elapsedMs : Nat) : Option Outcome :=
  match Ram.read ram cpu.pc with
  | none => none
  | some b1 =>
    match Ram.read ram (cpu.pc + 1) with
    | none => none
    | some b2 => Cpu.exec W H ((b1 <<< 8) ||| b2) cpu ram timer screen kb rand elapsedMs

/-- The decode conditions of the recognized opcode patterns of
`Cpu::run_instruction`, in source order; `Cpu.exec` reaches the
`unreachable!()` arm exactly when this predicate fails. -/
def knownInstruction (instr : Nat) : Prop :=
  let nn := instr % 256
  let n := instr % 16
  let fam := instr / 4096
  (fam = 0 ∧ nn = 0xE0) ∨ (fam = 0 ∧ nn = 0xEE) ∨ fam = 1 ∨ fam = 2 ∨
    fam = 3 ∨ fam = 4 ∨ (fam = 5 ∧ n = 0) ∨ fam = 6 ∨ fam = 7 ∨
    (fam = 8 ∧ (n = 0 ∨ n = 1 ∨ n = 2 ∨ n = 3 ∨ n = 4 ∨ n = 5 ∨ n = 6 ∨
      n = 7 ∨ n = 14)) ∨
    (fam = 9 ∧ n = 0) ∨ fam = 10 ∨ fam = 11 ∨ fam = 12 ∨ fam = 13 ∨
    (fam = 14 ∧ (nn = 0x9E ∨ nn = 0xA1)) ∨
    (fam = 15 ∧ (nn = 0x07 ∨ nn = 0x0A ∨ nn = 0x15 ∨ nn = 0x18 ∨ nn = 0x1E ∨
      nn = 0x29 ∨ nn = 0x33 ∨ nn = 0x55 ∨ nn = 0x65))

/-- Machine states reachable from `Emulator::new()` followed by
`load_rom(rom)`: the initial state uses an all-zero memory image except for
the first 80 bytes, where `load_digit_sprites` wrote the glyph table
(modelled from the spec: the glyph byte values live in the missing `consts`
module, so the base memory below address 80 is left arbitrary); every further
state arises from a successful `run_instruction` step under some keyboard
state, random byte and elapsed time. -/
inductive Reachable (W H : Nat) (rom : List Nat) : Cpu → Ram → Timer → Screen → Prop
  | init (base r0 : Ram) (hbase : ∀ a, 80 ≤ a → base.mem a = 0)
      (hload : Ram.load_rom base rom = some r0) :
      Reachable W H rom Cpu.new r0 Timer.new Screen.new
  | step (c : Cpu) (r : Ram) (t : Timer) (s : Screen) (kb : Keyboard)
      (rand elapsedMs : Nat) (out : Outcome)
      (hprev : Reachable W H rom c r t s)
      (hrun : Cpu.run_instruction W H c r t s kb rand elapsedMs = some out) :
      Reachable W H rom out.cpu out.ram out.timer out.screen

/-! ## Helper lemmas -/

/-- A successful `Ram.read` implies the address was in bounds. -/
theorem Ram.read_lt (r : Ram) (a b : Nat) (h : Ram.read r a = some b) : a < RAM_SIZE := by
  by_contra hcon
  simp [Ram.read, hcon] at h

set_option maxHeartbeats 1600000 in
/-- `Cpu.exec` reaches the `unreachable!()` arm exactly on the instruction
words outside `knownInstruction`. -/
theorem exec_unknown_eq_none (W H instr : Nat) (cpu : Cpu) (ram : Ram)
    (timer : Timer) (screen : Screen) (kb : Keyboard) (rand elapsedMs : Nat)
    (h : ¬ knownInstruction instr) :
    Cpu.exec W H instr cpu ram timer screen kb rand elapsedMs = none := by
  simp only [knownInstruction, not_or] at h
  obtain ⟨h1, h2, h3, h4, h5, h6, h7, h8, h9, h10, h11, h12, h13, h14, h15, h16, h17⟩ := h
  have g8_0 : ¬ (instr / 4096 = 8 ∧ instr % 16 = 0) := fun hc => h10 ⟨hc.1, Or.inl hc.2⟩
  have g8_1 : ¬ (instr / 4096 = 8 ∧ instr % 16 = 1) := fun hc => h10 ⟨hc.1, Or.inr (Or.inl hc.2)⟩
  have g8_2 : ¬ (instr / 4096 = 8 ∧ instr % 16 = 2) := fun hc => h10 ⟨hc.1, Or.inr (Or.inr (Or.inl hc.2))⟩
  have g8_3 : ¬ (instr / 4096 = 8 ∧ instr % 16 = 3) := fun hc => h10 ⟨hc.1, Or.inr (Or.inr (Or.inr (Or.inl hc.2)))⟩
  have g8_4 : ¬ (instr / 4096 = 8 ∧ instr % 16 = 4) := fun hc => h10 ⟨hc.1, Or.inr (Or.inr (Or.inr (Or.inr (Or.inl hc.2))))⟩
  have g8_5 : ¬ (instr / 4096 = 8 ∧ instr % 16 = 5) := fun hc => h10 ⟨hc.1, Or.inr (Or.inr (Or.inr (Or.inr (Or.inr (Or.inl hc.2)))))⟩
  have g8_6 : ¬ (instr / 4096 = 8 ∧ instr % 16 = 6) := fun hc => h10 ⟨hc.1, Or.inr (Or.inr (Or.inr (Or.inr (Or.inr (Or.inr (Or.inl hc.2))))))⟩
  have g8_7 : ¬ (instr / 4096 = 8 ∧ instr % 16 = 7) := fun hc => h10 ⟨hc.1, Or.inr (Or.inr (Or.inr (Or.inr (Or.inr (Or.inr (Or.inr (Or.inl hc.2)))))))⟩
  have g8_14 : ¬ (instr / 4096 = 8 ∧ instr % 16 = 14) := fun hc => h10 ⟨hc.1, Or.inr (Or.inr (Or.inr (Or.inr (Or.inr (Or.inr (Or.inr (Or.inr (hc.2))))))))⟩
  have g14_158 : ¬ (instr / 4096 = 14 ∧ instr % 256 = 158) := fun hc => h16 ⟨hc.1, Or.inl hc.2⟩
  have g14_161 : ¬ (instr / 4096 = 14 ∧ instr % 256 = 161) := fun hc => h16 ⟨hc.1, Or.inr (hc.2)⟩
  have g15_7 : ¬ (instr / 4096 = 15 ∧ instr % 256 = 7) := fun hc => h17 ⟨hc.1, Or.inl hc.2⟩
  have g15_10 : ¬ (instr / 4096 = 15 ∧ instr % 256 = 10) := fun hc => h17 ⟨hc.1, Or.inr (Or.inl hc.2)⟩
  have g15_21 : ¬ (instr / 4096 = 15 ∧ instr % 256 = 21) := fun hc => h17 ⟨hc.1, Or.inr (Or.inr (Or.inl hc.2))⟩
  have g15_24 : ¬ (instr / 4096 = 15 ∧ instr % 256 = 24) := fun hc => h17 ⟨hc.1, Or.inr (Or.inr (Or.inr (Or.inl hc.2)))⟩
  have g15_30 : ¬ (instr / 4096 = 15 ∧ instr % 256 = 30) := fun hc => h17 ⟨hc.1, Or.inr (Or.inr (Or.inr (Or.inr (Or.inl hc.2))))⟩
  have g15_41 : ¬ (instr / 4096 = 15 ∧ instr % 256 = 41) := fun hc => h17 ⟨hc.1, Or.inr (Or.inr (Or.inr (Or.inr (Or.inr (Or.inl hc.2)))))⟩
  have g15_51 : ¬ (instr / 4096 = 15 ∧ instr % 256 = 51) := fun hc => h17 ⟨hc.1, Or.inr (Or.inr (Or.inr (Or.inr (Or.inr (Or.inr (Or.inl hc.2))))))⟩
  have g15_85 : ¬ (instr / 4096 = 15 ∧ instr % 256 = 85) := fun hc => h17 ⟨hc.1, Or.inr (Or.inr (Or.inr (Or.inr (Or.inr (Or.inr (Or.inr (Or.inl hc.2)))))))⟩
  have g15_101 : ¬ (instr / 4096 = 15 ∧ instr % 256 = 101) := fun hc => h17 ⟨hc.1, Or.inr (Or.inr (Or.inr (Or.inr (Or.inr (Or.inr (Or.inr (Or.inr (hc.2))))))))⟩
  unfold Cpu.exec
  rw [if_neg h1, if_neg h2, if_neg h3, if_neg h4, if_neg h5, if_neg h6, if_neg h7, if_neg h8, if_neg h9, if_neg g8_0, if_neg g8_1, if_neg g8_2, if_neg g8_3, if_neg g8_4, if_neg g8_5, if_neg g8_6, if_neg g8_7, if_neg g8_14, if_neg h11, if_neg h12, if_neg h13, if_neg h14, if_neg h15, if_neg g14_158, if_neg g14_161, if_neg g15_7, if_neg g15_10, if_neg g15_21, if_neg g15_24, if_neg g15_30, if_neg g15_41, if_neg g15_51, if_neg g15_85, if_neg g15_101]

/-! ## C6 -/

/-- C6: for a stored 8-bit delay `t.delay` and any elapsed time, `get_delay`
returns `0` when `elapsedMs / 16 ≥ t.delay` and `t.delay - elapsedMs / 16`
otherwise; it never fails (the internal `u8::try_from` conversion cannot hit
the `unreachable!()` arm) and the result never exceeds the stored value. -/
theorem claim6_delay_derivation (t : Timer) (elapsedMs : Nat) (h : t.delay < 256) :
    Timer.get_delay t elapsedMs =
      some (if t.delay ≤ elapsedMs / 16 then 0 else t.delay - elapsedMs / 16) ∧
    ∀ value, Timer.get_delay t elapsedMs = some value → value ≤ t.delay := by
  constructor
  · by_cases hc : t.delay ≤ elapsedMs / 16
    · simp [Timer.get_delay, hc]
    · have h2 : elapsedMs / 16 < 256 := by omega
      simp [Timer.get_delay, hc, h2]
  · intro value hv
    simp only [Timer.get_delay] at hv
    split_ifs at hv <;> simp_all <;> omega

/-- C6 witness: delay 5, 32 ms elapsed (two ticks) yields 3. -/
theorem claim6_witness :
    (⟨5⟩ : Timer).delay < 256 ∧
    Timer.get_delay ⟨5⟩ 32 =
      some (if (⟨5⟩ : Timer).delay ≤ 32 / 16 then 0 else (⟨5⟩ : Timer).delay - 32 / 16) :=
  ⟨by decide, (claim6_delay_derivation ⟨5⟩ 32 (by decide)).1⟩

/-! ## C8 -/

/-- C8 (amended): every memory read is bounds-checked at access time —
`Ram.read` yields a byte iff its address is below the 4096-byte memory size —
and a step whose two-byte fetch window reaches the memory size aborts
(returns `none`) instead of reading out of range. -/
theorem claim8_read_validated :
    (∀ (r : Ram) (a : Nat), (Ram.read r a).isSome ↔ a < RAM_SIZE) ∧
    (∀ (W H : Nat) (c : Cpu) (r : Ram) (t : Timer) (s : Screen) (kb : Keyboard)
      (rand elapsedMs : Nat), RAM_SIZE ≤ c.pc + 1 →
      Cpu.run_instruction W H c r t s kb rand elapsedMs = none) := by
  constructor
  · intro r a
    by_cases h : a < RAM_SIZE <;> simp [Ram.read, h]
  · intro W H c r t s kb rand elapsedMs hpc
    by_cases h1 : c.pc < RAM_SIZE
    · have h2 : ¬ (c.pc + 1 < RAM_SIZE) := by omega
      simp [Cpu.run_instruction, Ram.read, h1, h2]
    · simp [Cpu.run_instruction, Ram.read, h1]

/-- C8 witness: a step at program counter 5000 aborts. -/
theorem claim8_witness :
    RAM_SIZE ≤ (⟨fun _ => 0, 0, 5000, []⟩ : Cpu).pc + 1 ∧
    Cpu.run_instruction 64 32 ⟨fun _ => 0, 0, 5000, []⟩ ⟨fun _ => 0⟩ ⟨0⟩
      ⟨fun _ => 0⟩ ⟨none⟩ 0 0 = none :=
  ⟨by decide, claim8_read_validated.2 64 32 ⟨fun _ => 0, 0, 5000, []⟩ ⟨fun _ => 0⟩
    ⟨0⟩ ⟨fun _ => 0⟩ ⟨none⟩ 0 0 (by decide)⟩

/-- C8 counterexample: the ROM `1FFF` (jump to 0xFFF) makes the state with
`pc = 0xFFF` reachable; its fetch passes address `0x1000 = 4096`, which is
not below the memory size, to `Ram.read`, and the step aborts. -/
theorem claim8_counterexample :
    ∃ (c : Cpu) (r : Ram) (t : Timer) (s : Screen),
      Reachable 64 32 [0x1F, 0xFF] c r t s ∧ RAM_SIZE ≤ c.pc + 1 ∧
      Cpu.run_instruction 64 32 c r t s ⟨none⟩ 0 0 = none := by
  refine ⟨⟨fun _ => 0, 0, 4095, []⟩,
    ⟨fun a => if a = 513 then 255 else if a = 512 then 31 else 0⟩,
    Timer.new, Screen.new, ?_, by decide, by rfl⟩
  have hinit : Reachable 64 32 [0x1F, 0xFF] Cpu.new
      ⟨fun a => if a = 513 then 255 else if a = 512 then 31 else 0⟩ Timer.new Screen.new :=
    Reachable.init Ram.new _ (fun a _ => rfl) rfl
  exact Reachable.step Cpu.new _ Timer.new Screen.new ⟨none⟩ 0 0
    ⟨⟨fun _ => 0, 0, 4095, []⟩,
      ⟨fun a => if a = 513 then 255 else if a = 512 then 31 else 0⟩,
      Timer.new, Screen.new⟩
    hinit rfl

/-! ## C9 -/

/-- C9 (amended): a fetched `00EE` (family 0, low byte `0xEE`) with an empty
return stack aborts the step, and a fetched word matching no recognized
pattern aborts the step. -/
theorem claim9_fatal_paths (W H : Nat) (c : Cpu) (r : Ram) (t : Timer)
    (s : Screen) (kb : Keyboard) (rand elapsedMs b1 b2 : Nat)
    (hr1 : Ram.read r c.pc = some b1) (hr2 : Ram.read r (c.pc + 1) = some b2) :
    (((b1 <<< 8) ||| b2) / 4096 = 0 → ((b1 <<< 8) ||| b2) % 256 = 0xEE →
      c.return_stack = [] →
      Cpu.run_instruction W H c r t s kb rand elapsedMs = none) ∧
    (¬ knownInstruction ((b1 <<< 8) ||| b2) →
      Cpu.run_instruction W H c r t s kb rand elapsedMs = none) := by
  constructor
  · intro hfam hnn hstack
    simp only [Cpu.run_instruction, hr1, hr2]
    simp only [Cpu.exec, hfam, hnn]
    norm_num
    simp [armReturn, hstack]
  · intro hk
    simp only [Cpu.run_instruction, hr1, hr2]
    exact exec_unknown_eq_none W H _ c r t s kb rand elapsedMs hk

/-- C9 witness: a `00EE` at pc 512 with an empty stack aborts. -/
theorem claim9_witness :
    Cpu.run_instruction 64 32 ⟨fun _ => 0, 0, 512, []⟩
      ⟨fun a => if a = 513 then 238 else 0⟩ ⟨0⟩ ⟨fun _ => 0⟩ ⟨none⟩ 0 0 = none :=
  (claim9_fatal_paths 64 32 ⟨fun _ => 0, 0, 512, []⟩
      ⟨fun a => if a = 513 then 238 else 0⟩ ⟨0⟩ ⟨fun _ => 0⟩ ⟨none⟩ 0 0 0 238
      (by decide) (by decide)).1 (by decide) (by decide) rfl

/-- C9 counterexample: a step can also abort with a non-empty return stack
and with no instruction word fetched at all (the second fetch read at address
4096 fails), so stack underflow and invalid encodings are not the only
aborting paths. -/
theorem claim9_counterexample :
    Cpu.run_instruction 64 32 ⟨fun _ => 0, 0, 4095, [300]⟩ ⟨fun _ => 0⟩ ⟨0⟩
      ⟨fun _ => 0⟩ ⟨none⟩ 0 0 = none ∧
    (⟨fun _ => 0, 0, 4095, [300]⟩ : Cpu).return_stack ≠ [] ∧
    Ram.read ⟨fun _ => 0⟩ ((⟨fun _ => 0, 0, 4095, [300]⟩ : Cpu).pc + 1) = none :=
  ⟨rfl, by decide, by decide⟩

/-! ## C1 -/

/-- C1 (amended): for register indices `x ≠ 0xF`, `y`, executing a fetched
`8xy4` stores the wrapped sum `(a + b) % 256` into `vx`, sets `vF` to 1 iff
`a + b > 255`, and advances the program counter by 2 (when `x = 0xF` the
carry write overwrites the stored sum, see the counterexample). -/
theorem claim1_add_with_carry (W H : Nat) (c : Cpu) (r : Ram) (t : Timer)
    (s : Screen) (kb : Keyboard) (rand elapsedMs x y b1 b2 : Nat)
    (hx : x < 16) (hy : y < 16) (hxF : x ≠ 15)
    (hr1 : Ram.read r c.pc = some b1) (hr2 : Ram.read r (c.pc + 1) = some b2)
    (hw : (b1 <<< 8) ||| b2 = 0x8000 + x * 256 + y * 16 + 4)
    (ha : c.v x < 256) (hb : c.v y < 256) :
    ∃ out, Cpu.run_instruction W H c r t s kb rand elapsedMs = some out ∧
      out.cpu.v x = (c.v x + c.v y) % 256 ∧
      out.cpu.v 15 = (if 255 < c.v x + c.v y then 1 else 0) ∧
      out.cpu.pc = c.pc + 2 := by
  have hpc : c.pc < RAM_SIZE := Ram.read_lt r c.pc b1 hr1
  have hfam : (0x8000 + x * 256 + y * 16 + 4) / 4096 = 8 := by omega
  have hn : (0x8000 + x * 256 + y * 16 + 4) % 16 = 4 := by omega
  have hxf : (0x8000 + x * 256 + y * 16 + 4) / 256 % 16 = x := by omega
  have hyf : (0x8000 + x * 256 + y * 16 + 4) / 16 % 16 = y := by omega
  have hpc2 : (c.pc + 2) % 65536 = c.pc + 2 := by
    simp only [RAM_SIZE] at hpc; omega
  refine ⟨⟨{ c with v := fun a => if a = 15 then (if 256 ≤ c.v x + c.v y then 1 else 0) else if a = x then (c.v x + c.v y) % 256 else c.v a, pc := (c.pc + 2) % 65536 }, r, t, s⟩, ?_, ?_, ?_, ?_⟩
  · simp only [Cpu.run_instruction, hr1, hr2, hw]
    simp only [Cpu.exec, hfam, hn, hxf, hyf]
    norm_num
    simp only [armAddCarry]
  · dsimp only
    rw [if_neg hxF, if_pos rfl]
  · dsimp only
    rw [if_pos rfl]
    split_ifs <;> omega
  · dsimp only
    exact hpc2

/-- C1 witness: `8124` with `v1 = 200`, `v2 = 100` gives `v1 = 44`,
`vF = 1`, `pc = 514`. -/
theorem claim1_witness :
    ∃ out, Cpu.run_instruction 64 32
        ⟨fun a => if a = 1 then 200 else if a = 2 then 100 else 0, 0, 512, []⟩
        ⟨fun a => if a = 512 then 0x81 else if a = 513 then 0x24 else 0⟩
        ⟨0⟩ ⟨fun _ => 0⟩ ⟨none⟩ 0 0 = some out ∧
      out.cpu.v 1 =
        ((⟨fun a => if a = 1 then 200 else if a = 2 then 100 else 0, 0, 512, []⟩ : Cpu).v 1 +
          (⟨fun a => if a = 1 then 200 else if a = 2 then 100 else 0, 0, 512, []⟩ : Cpu).v 2) % 256 ∧
      out.cpu.v 15 =
        (if 255 < (⟨fun a => if a = 1 then 200 else if a = 2 then 100 else 0, 0, 512, []⟩ : Cpu).v 1 +
            (⟨fun a => if a = 1 then 200 else if a = 2 then 100 else 0, 0, 512, []⟩ : Cpu).v 2
          then 1 else 0) ∧
      out.cpu.pc = (⟨fun a => if a = 1 then 200 else if a = 2 then 100 else 0, 0, 512, []⟩ : Cpu).pc + 2 :=
  claim1_add_with_carry 64 32
    ⟨fun a => if a = 1 then 200 else if a = 2 then 100 else 0, 0, 512, []⟩
    ⟨fun a => if a = 512 then 0x81 else if a = 513 then 0x24 else 0⟩
    ⟨0⟩ ⟨fun _ => 0⟩ ⟨none⟩ 0 0 1 2 0x81 0x24
    (by decide) (by decide) (by decide) (by decide) (by decide) (by decide)
    (by decide) (by decide)

/-- C1 counterexample: with `x = y = 15` and `v15 = 1`, the claim as stated
requires `v15 = (1 + 1) % 256 = 2` after `8FF4`, but the executed step leaves
`v15 = 0` (the carry flag overwrote the sum). -/
theorem claim1_counterexample :
    (Cpu.run_instruction 64 32 ⟨fun a => if a = 15 then 1 else 0, 0, 512, []⟩
        ⟨fun a => if a = 512 then 0x8F else if a = 513 then 0xF4 else 0⟩ ⟨0⟩
        ⟨fun _ => 0⟩ ⟨none⟩ 0 0).map (fun out => out.cpu.v 15) = some 0 ∧
    ((1 : Nat) + 1) % 256 = 2 ∧ (0 : Nat) ≠ 2 :=
  ⟨rfl, by decide, by decide⟩

/-! ## C2 -/

/-- C2 (amended): for register indices `x ≠ 0xF`, `y`, a fetched `8xy5`
stores `(a - b) mod 256` (as `(a + 256 - b) % 256`) into `vx` and sets `vF`
to 1 iff `a ≥ b`, and a fetched `8xy7` stores `(b - a) mod 256` into `vx`
and sets `vF` to 1 iff `b ≥ a`; both advance the program counter by 2 (when
`x = 0xF` the borrow-flag write overwrites the stored difference). -/
theorem claim2_subtract_both_orders (W H : Nat) (c : Cpu) (r : Ram) (t : Timer)
    (s : Screen) (kb : Keyboard) (rand elapsedMs x y b1 b2 : Nat)
    (hx : x < 16) (hy : y < 16) (hxF : x ≠ 15)
    (hr1 : Ram.read r c.pc = some b1) (hr2 : Ram.read r (c.pc + 1) = some b2)
    (ha : c.v x < 256) (hb : c.v y < 256) :
    ((b1 <<< 8) ||| b2 = 0x8000 + x * 256 + y * 16 + 5 →
      ∃ out, Cpu.run_instruction W H c r t s kb rand elapsedMs = some out ∧
        out.cpu.v x = (c.v x + 256 - c.v y) % 256 ∧
        out.cpu.v 15 = (if c.v y ≤ c.v x then 1 else 0) ∧
        out.cpu.pc = c.pc + 2) ∧
    ((b1 <<< 8) ||| b2 = 0x8000 + x * 256 + y * 16 + 7 →
      ∃ out, Cpu.run_instruction W H c r t s kb rand elapsedMs = some out ∧
        out.cpu.v x = (c.v y + 256 - c.v x) % 256 ∧
        out.cpu.v 15 = (if c.v x ≤ c.v y then 1 else 0) ∧
        out.cpu.pc = c.pc + 2) := by
  have hpc : c.pc < RAM_SIZE := Ram.read_lt r c.pc b1 hr1
  have hpc2 : (c.pc + 2) % 65536 = c.pc + 2 := by
    simp only [RAM_SIZE] at hpc; omega
  constructor
  · intro hw
    have hfam : (0x8000 + x * 256 + y * 16 + 5) / 4096 = 8 := by omega
    have hn : (0x8000 + x * 256 + y * 16 + 5) % 16 = 5 := by omega
    have hxf : (0x8000 + x * 256 + y * 16 + 5) / 256 % 16 = x := by omega
    have hyf : (0x8000 + x * 256 + y * 16 + 5) / 16 % 16 = y := by omega
    refine ⟨⟨{ c with v := fun a => if a = 15 then (if c.v y ≤ c.v x then 1 else 0) else if a = x then (c.v x + 256 - c.v y) % 256 else c.v a, pc := (c.pc + 2) % 65536 }, r, t, s⟩, ?_, ?_, ?_, ?_⟩
    · simp only [Cpu.run_instruction, hr1, hr2, hw]
      simp only [Cpu.exec, hfam, hn, hxf, hyf]
      norm_num
      simp only [armSub]
    · dsimp only
      rw [if_neg hxF, if_pos rfl]
    · dsimp only
      rw [if_pos rfl]
    · dsimp only
      exact hpc2
  · intro hw
    have hfam : (0x8000 + x * 256 + y * 16 + 7) / 4096 = 8 := by omega
    have hn : (0x8000 + x * 256 + y * 16 + 7) % 16 = 7 := by omega
    have hxf : (0x8000 + x * 256 + y * 16 + 7) / 256 % 16 = x := by omega
    have hyf : (0x8000 + x * 256 + y * 16 + 7) / 16 % 16 = y := by omega
    refine ⟨⟨{ c with v := fun a => if a = 15 then (if c.v x ≤ c.v y then 1 else 0) else if a = x then (c.v y + 256 - c.v x) % 256 else c.v a, pc := (c.pc + 2) % 65536 }, r, t, s⟩, ?_, ?_, ?_, ?_⟩
    · simp only [Cpu.run_instruction, hr1, hr2, hw]
      simp only [Cpu.exec, hfam, hn, hxf, hyf]
      norm_num
      simp only [armSubRev]
    · dsimp only
      rw [if_neg hxF, if_pos rfl]
    · dsimp only
      rw [if_pos rfl]
    · dsimp only
      exact hpc2

/-- C2 witness: `8125` with `v1 = 50`, `v2 = 70` gives `v1 = 236`, `vF = 0`;
`8127` with the same registers gives `v1 = 20`, `vF = 1`. -/
theorem claim2_witness :
    (∃ out, Cpu.run_instruction 64 32
        ⟨fun a => if a = 1 then 50 else if a = 2 then 70 else 0, 0, 512, []⟩
        ⟨fun a => if a = 512 then 0x81 else if a = 513 then 0x25 else 0⟩
        ⟨0⟩ ⟨fun _ => 0⟩ ⟨none⟩ 0 0 = some out ∧
      out.cpu.v 1 = (50 + 256 - 70) % 256 ∧
      out.cpu.v 15 = (if (70 : Nat) ≤ 50 then 1 else 0) ∧
      out.cpu.pc = 512 + 2) ∧
    (∃ out, Cpu.run_instruction 64 32
        ⟨fun a => if a = 1 then 50 else if a = 2 then 70 else 0, 0, 512, []⟩
        ⟨fun a => if a = 512 then 0x81 else if a = 513 then 0x27 else 0⟩
        ⟨0⟩ ⟨fun _ => 0⟩ ⟨none⟩ 0 0 = some out ∧
      out.cpu.v 1 = (70 + 256 - 50) % 256 ∧
      out.cpu.v 15 = (if (50 : Nat) ≤ 70 then 1 else 0) ∧
      out.cpu.pc = 512 + 2) :=
  ⟨(claim2_subtract_both_orders 64 32
      ⟨fun a => if a = 1 then 50 else if a = 2 then 70 else 0, 0, 512, []⟩
      ⟨fun a => if a = 512 then 0x81 else if a = 513 then 0x25 else 0⟩
      ⟨0⟩ ⟨fun _ => 0⟩ ⟨none⟩ 0 0 1 2 0x81 0x25
      (by decide) (by decide) (by decide) (by decide) (by decide) (by decide)
      (by decide)).1 (by decide),
   (claim2_subtract_both_orders 64 32
      ⟨fun a => if a = 1 then 50 else if a = 2 then 70 else 0, 0, 512, []⟩
      ⟨fun a => if a = 512 then 0x81 else if a = 513 then 0x27 else 0⟩
      ⟨0⟩ ⟨fun _ => 0⟩ ⟨none⟩ 0 0 1 2 0x81 0x27
      (by decide) (by decide) (by decide) (by decide) (by decide) (by decide)
      (by decide)).2 (by decide)⟩

/-- C2 counterexample: with `x = 15`, `y = 0`, `v15 = 0`, `v0 = 1`, the claim
as stated requires `v15 = (0 - 1) mod 256 = 255` after `8F05`, but the
executed step leaves `v15 = 0` (the borrow flag overwrote the difference). -/
theorem claim2_counterexample :
    (Cpu.run_instruction 64 32 ⟨fun a => if a = 0 then 1 else 0, 0, 512, []⟩
        ⟨fun a => if a = 512 then 0x8F else if a = 513 then 0x05 else 0⟩ ⟨0⟩
        ⟨fun _ => 0⟩ ⟨none⟩ 0 0).map (fun out => out.cpu.v 15) = some 0 ∧
    ((0 : Nat) + 256 - 1) % 256 = 255 ∧ (0 : Nat) ≠ 255 :=
  ⟨rfl, by decide, by decide⟩

/-! ## C3 -/

/-- C3 (amended): for a register index `x ≠ 0xF`, a fetched `8xy6` sets `vF`
to the pre-shift least-significant bit `vx AND 1` and stores `vx >> 1` into
`vx`; a fetched `8xyE` sets `vF` to the pre-shift most-significant bit
`(vx AND 0x80) >> 7` and stores `(vx << 1) % 256` into `vx`; both advance the
program counter by 2 (when `x = 0xF` the flag write happens first and is then
shifted, see the counterexample). -/
theorem claim3_shifts (W H : Nat) (c : Cpu) (r : Ram) (t : Timer)
    (s : Screen) (kb : Keyboard) (rand elapsedMs x y b1 b2 : Nat)
    (hx : x < 16) (hy : y < 16) (hxF : x ≠ 15)
    (hr1 : Ram.read r c.pc = some b1) (hr2 : Ram.read r (c.pc + 1) = some b2)
    (ha : c.v x < 256) :
    ((b1 <<< 8) ||| b2 = 0x8000 + x * 256 + y * 16 + 6 →
      ∃ out, Cpu.run_instruction W H c r t s kb rand elapsedMs = some out ∧
        out.cpu.v 15 = c.v x &&& 1 ∧
        out.cpu.v x = c.v x >>> 1 ∧
        out.cpu.pc = c.pc + 2) ∧
    ((b1 <<< 8) ||| b2 = 0x8000 + x * 256 + y * 16 + 14 →
      ∃ out, Cpu.run_instruction W H c r t s kb rand elapsedMs = some out ∧
        out.cpu.v 15 = (c.v x &&& 128) >>> 7 ∧
        out.cpu.v x = (c.v x <<< 1) % 256 ∧
        out.cpu.pc = c.pc + 2) := by
  have hpc : c.pc < RAM_SIZE := Ram.read_lt r c.pc b1 hr1
  have hpc2 : (c.pc + 2) % 65536 = c.pc + 2 := by
    simp only [RAM_SIZE] at hpc; omega
  constructor
  · intro hw
    have hfam : (0x8000 + x * 256 + y * 16 + 6) / 4096 = 8 := by omega
    have hn : (0x8000 + x * 256 + y * 16 + 6) % 16 = 6 := by omega
    have hxf : (0x8000 + x * 256 + y * 16 + 6) / 256 % 16 = x := by omega
    refine ⟨⟨{ c with v := fun a => if a = x then (if x = 15 then c.v x &&& 1 else c.v x) >>> 1 else if a = 15 then c.v x &&& 1 else c.v a, pc := (c.pc + 2) % 65536 }, r, t, s⟩, ?_, ?_, ?_, ?_⟩
    · simp only [Cpu.run_instruction, hr1, hr2, hw]
      simp only [Cpu.exec, hfam, hn, hxf]
      norm_num
      simp [armShr, Nat.and_one_is_mod]
    · dsimp only
      rw [if_neg (Ne.symm hxF), if_pos rfl]
    · dsimp only
      rw [if_pos rfl, if_neg hxF]
    · dsimp only
      exact hpc2
  · intro hw
    have hfam : (0x8000 + x * 256 + y * 16 + 14) / 4096 = 8 := by omega
    have hn : (0x8000 + x * 256 + y * 16 + 14) % 16 = 14 := by omega
    have hxf : (0x8000 + x * 256 + y * 16 + 14) / 256 % 16 = x := by omega
    refine ⟨⟨{ c with v := fun a => if a = x then ((if x = 15 then (c.v x &&& 128) >>> 7 else c.v x) <<< 1) % 256 else if a = 15 then (c.v x &&& 128) >>> 7 else c.v a, pc := (c.pc + 2) % 65536 }, r, t, s⟩, ?_, ?_, ?_, ?_⟩
    · simp only [Cpu.run_instruction, hr1, hr2, hw]
      simp only [Cpu.exec, hfam, hn, hxf]
      norm_num
      simp only [armShl]
    · dsimp only
      rw [if_neg (Ne.symm hxF), if_pos rfl]
    · dsimp only
      rw [if_pos rfl, if_neg hxF]
    · dsimp only
      exact hpc2

/-- C3 witness: `8126` with `v1 = 0xA5` gives `vF = 1`, `v1 = 0x52`;
`812E` with `v1 = 0xA5` gives `vF = 1`, `v1 = 0x4A`. -/
theorem claim3_witness :
    (∃ out, Cpu.run_instruction 64 32
        ⟨fun a => if a = 1 then 0xA5 else 0, 0, 512, []⟩
        ⟨fun a => if a = 512 then 0x81 else if a = 513 then 0x26 else 0⟩
        ⟨0⟩ ⟨fun _ => 0⟩ ⟨none⟩ 0 0 = some out ∧
      out.cpu.v 15 = (0xA5 : Nat) &&& 1 ∧
      out.cpu.v 1 = (0xA5 : Nat) >>> 1 ∧
      out.cpu.pc = 512 + 2) ∧
    (∃ out, Cpu.run_instruction 64 32
        ⟨fun a => if a = 1 then 0xA5 else 0, 0, 512, []⟩
        ⟨fun a => if a = 512 then 0x81 else if a = 513 then 0x2E else 0⟩
        ⟨0⟩ ⟨fun _ => 0⟩ ⟨none⟩ 0 0 = some out ∧
      out.cpu.v 15 = ((0xA5 : Nat) &&& 128) >>> 7 ∧
      out.cpu.v 1 = ((0xA5 : Nat) <<< 1) % 256 ∧
      out.cpu.pc = 512 + 2) :=
  ⟨(claim3_shifts 64 32 ⟨fun a => if a = 1 then 0xA5 else 0, 0, 512, []⟩
      ⟨fun a => if a = 512 then 0x81 else if a = 513 then 0x26 else 0⟩
      ⟨0⟩ ⟨fun _ => 0⟩ ⟨none⟩ 0 0 1 2 0x81 0x26
      (by decide) (by decide) (by decide) (by decide) (by decide)
      (by decide)).1 (by decide),
   (claim3_shifts 64 32 ⟨fun a => if a = 1 then 0xA5 else 0, 0, 512, []⟩
      ⟨fun a => if a = 512 then 0x81 else if a = 513 then 0x2E else 0⟩
      ⟨0⟩ ⟨fun _ => 0⟩ ⟨none⟩ 0 0 1 2 0x81 0x2E
      (by decide) (by decide) (by decide) (by decide) (by decide)
      (by decide)).2 (by decide)⟩

/-- C3 counterexample: with `x = 15` and `v15 = 1`, the claim as stated
requires `vF = 1` (the pre-shift least-significant bit) after `8F06`, but the
executed step leaves `v15 = 0` (the flag value itself was then shifted). -/
theorem claim3_counterexample :
    (Cpu.run_instruction 64 32 ⟨fun a => if a = 15 then 1 else 0, 0, 512, []⟩
        ⟨fun a => if a = 512 then 0x8F else if a = 513 then 0x06 else 0⟩ ⟨0⟩
        ⟨fun _ => 0⟩ ⟨none⟩ 0 0).map (fun out => out.cpu.v 15) = some 0 ∧
    (1 : Nat) &&& 1 = 1 ∧ (0 : Nat) ≠ 1 :=
  ⟨rfl, by decide, by decide⟩

/-! ## C7 -/

/-- `storeRegs` succeeds when the whole target range is in bounds, and the
resulting memory holds `v (a - i)` on `[i, i + cnt)` and is unchanged
elsewhere. -/
theorem storeRegs_spec (v : Nat → Nat) (i : Nat) (r : Ram) :
    ∀ cnt, i + cnt ≤ RAM_SIZE →
      ∃ r2, storeRegs v i r cnt = some r2 ∧
        ∀ a, r2.mem a = if i ≤ a ∧ a < i + cnt then v (a - i) else r.mem a := by
  intro cnt
  induction cnt with
  | zero =>
    intro _
    refine ⟨r, rfl, fun a => ?_⟩
    rw [if_neg (by omega)]
  | succ m ih =>
    intro hle
    obtain ⟨r2, hst, hmem⟩ := ih (by omega)
    have hmod : (i + m) % 65536 = i + m := by
      simp only [RAM_SIZE] at hle; omega
    have hlt : i + m < RAM_SIZE := by
      simp only [RAM_SIZE] at hle ⊢; omega
    refine ⟨⟨fun a => if a = i + m then v m else r2.mem a⟩, ?_, ?_⟩
    · simp only [storeRegs, hst]
      simp only [Ram.write, hmod]
      rw [if_pos hlt]
    · intro a
      by_cases hcase : a = i + m
      · subst hcase
        dsimp only
        rw [if_pos rfl, if_pos (by omega)]
        congr 1
        omega
      · dsimp only
        rw [if_neg hcase, hmem a]
        by_cases h2 : i ≤ a ∧ a < i + m
        · rw [if_pos h2, if_pos (by omega)]
        · rw [if_neg h2, if_neg (by omega)]

/-- `loadRegs` succeeds when the whole source range is in bounds, and the
resulting register file holds `r.mem (i + a)` for `a < cnt` and is unchanged
elsewhere. -/
theorem loadRegs_spec (i : Nat) (r : Ram) (v : Nat → Nat) :
    ∀ cnt, i + cnt ≤ RAM_SIZE →
      ∃ v2, loadRegs i r v cnt = some v2 ∧
        ∀ a, v2 a = if a < cnt then r.mem (i + a) else v a := by
  intro cnt
  induction cnt with
  | zero =>
    intro _
    exact ⟨v, rfl, fun a => by rw [if_neg (by omega)]⟩
  | succ m ih =>
    intro hle
    obtain ⟨v2, hld, hv⟩ := ih (by omega)
    have hmod : (i + m) % 65536 = i + m := by
      simp only [RAM_SIZE] at hle; omega
    have hlt : i + m < RAM_SIZE := by
      simp only [RAM_SIZE] at hle ⊢; omega
    refine ⟨fun a => if a = m then r.mem (i + m) else v2 a, ?_, ?_⟩
    · simp only [loadRegs, hld]
      simp only [Ram.read, hmod]
      rw [if_pos hlt]
    · intro a
      by_cases hcase : a = m
      · subst hcase
        dsimp only
        rw [if_pos rfl, if_pos (by omega)]
      · dsimp only
        rw [if_neg hcase, hv a]
        by_cases h2 : a < m
        · rw [if_pos h2, if_pos (by omega)]
        · rw [if_neg h2, if_neg (by omega)]

/-- C7: executing block store `Fx55` and then block load `Fx65` with the same
address register `i` (which neither instruction changes) and the same `x`
reproduces the original values of registers 0 through `x` exactly, provided
the stored range fits in memory. -/
theorem claim7_store_load_roundtrip (W H : Nat) (c : Cpu) (r : Ram) (t : Timer)
    (s : Screen) (kb : Keyboard) (rand elapsedMs x : Nat)
    (hx : x < 16) (hbound : c.i + x < RAM_SIZE) :
    ∃ out1 out2,
      Cpu.exec W H (0xF000 + x * 256 + 0x55) c r t s kb rand elapsedMs = some out1 ∧
      Cpu.exec W H (0xF000 + x * 256 + 0x65) out1.cpu out1.ram out1.timer
        out1.screen kb rand elapsedMs = some out2 ∧
      out1.cpu.i = c.i ∧
      ∀ k, k ≤ x → out2.cpu.v k = c.v k := by
  have hfam : (0xF000 + x * 256 + 0x55) / 4096 = 15 := by omega
  have hnn : (0xF000 + x * 256 + 0x55) % 256 = 0x55 := by omega
  have hxf : (0xF000 + x * 256 + 0x55) / 256 % 16 = x := by omega
  have hfam2 : (0xF000 + x * 256 + 0x65) / 4096 = 15 := by omega
  have hnn2 : (0xF000 + x * 256 + 0x65) % 256 = 0x65 := by omega
  have hxf2 : (0xF000 + x * 256 + 0x65) / 256 % 16 = x := by omega
  obtain ⟨r2, hst, hmem⟩ := storeRegs_spec c.v c.i r (x + 1)
    (by simp only [RAM_SIZE] at hbound ⊢; omega)
  obtain ⟨v2, hld, hv⟩ := loadRegs_spec c.i r2 c.v (x + 1)
    (by simp only [RAM_SIZE] at hbound ⊢; omega)
  refine ⟨⟨⟨c.v, c.i, (c.pc + 2) % 65536, c.return_stack⟩, r2, t, s⟩,
    ⟨⟨v2, c.i, (c.pc + 4) % 65536, c.return_stack⟩, r2, t, s⟩,
    ?_, ?_, rfl, ?_⟩
  · simp only [Cpu.exec, hfam, hnn, hxf]
    norm_num
    simp only [armStore, hst]
  · dsimp only
    simp only [Cpu.exec, hfam2, hnn2, hxf2]
    norm_num
    simp only [armLoad, hld]
    simp only [Nat.mod_add_mod]
  · intro k hk
    dsimp only
    rw [hv k, if_pos (by omega), hmem (c.i + k), if_pos (by omega)]
    congr 1
    omega

/-- C7 witness: `x = 2`, `i = 100`, registers `v k = k + 1`. -/
theorem claim7_witness :
    ∃ out1 out2,
      Cpu.exec 64 32 (0xF000 + 2 * 256 + 0x55) ⟨fun a => a + 1, 100, 512, []⟩
        ⟨fun _ => 0⟩ ⟨0⟩ ⟨fun _ => 0⟩ ⟨none⟩ 0 0 = some out1 ∧
      Cpu.exec 64 32 (0xF000 + 2 * 256 + 0x65) out1.cpu out1.ram out1.timer
        out1.screen ⟨none⟩ 0 0 = some out2 ∧
      out1.cpu.i = (⟨fun a => a + 1, 100, 512, []⟩ : Cpu).i ∧
      ∀ k, k ≤ 2 → out2.cpu.v k = (⟨fun a => a + 1, 100, 512, []⟩ : Cpu).v k :=
  claim7_store_load_roundtrip 64 32 ⟨fun a => a + 1, 100, 512, []⟩ ⟨fun _ => 0⟩
    ⟨0⟩ ⟨fun _ => 0⟩ ⟨none⟩ 0 0 2 (by decide) (by decide)

/-! ## C10 -/

/-- C10: a fetched `Fx0A` (wait for key) writes the latched key code into
`vx` and advances the program counter by 2 when a key is latched, and leaves
the whole machine state unchanged when none is, so the same instruction is
fetched again on the next step. -/
theorem claim10_wait_key (W H : Nat) (c : Cpu) (r : Ram) (t : Timer)
    (s : Screen) (kb : Keyboard) (rand elapsedMs x b1 b2 : Nat)
    (hx : x < 16)
    (hr1 : Ram.read r c.pc = some b1) (hr2 : Ram.read r (c.pc + 1) = some b2)
    (hw : (b1 <<< 8) ||| b2 = 0xF000 + x * 256 + 0x0A) :
    (kb.pressed_key_code = none →
      Cpu.run_instruction W H c r t s kb rand elapsedMs = some ⟨c, r, t, s⟩) ∧
    (∀ code, kb.pressed_key_code = some code →
      ∃ out, Cpu.run_instruction W H c r t s kb rand elapsedMs = some out ∧
        out.cpu.v x = code ∧ out.cpu.pc = c.pc + 2) := by
  have hpc : c.pc < RAM_SIZE := Ram.read_lt r c.pc b1 hr1
  have hpc2 : (c.pc + 2) % 65536 = c.pc + 2 := by
    simp only [RAM_SIZE] at hpc; omega
  have hfam : (0xF000 + x * 256 + 0x0A) / 4096 = 15 := by omega
  have hnn : (0xF000 + x * 256 + 0x0A) % 256 = 0x0A := by omega
  have hxf : (0xF000 + x * 256 + 0x0A) / 256 % 16 = x := by omega
  constructor
  · intro hk
    simp only [Cpu.run_instruction, hr1, hr2, hw]
    simp only [Cpu.exec, hfam, hnn, hxf]
    norm_num
    simp only [armWaitKey, hk]
  · intro code hk
    refine ⟨⟨{ c with v := fun a => if a = x then code else c.v a, pc := (c.pc + 2) % 65536 }, r, t, s⟩, ?_, ?_, ?_⟩
    · simp only [Cpu.run_instruction, hr1, hr2, hw]
      simp only [Cpu.exec, hfam, hnn, hxf]
      norm_num
      simp only [armWaitKey, hk]
    · dsimp only
      rw [if_pos rfl]
    · dsimp only
      exact hpc2

/-- C10 witness: `F30A` at pc 512, with no key latched the state is
unchanged; with key 7 latched, `v3 = 7` and `pc = 514`. -/
theorem claim10_witness :
    (Cpu.run_instruction 64 32 ⟨fun _ => 0, 0, 512, []⟩
        ⟨fun a => if a = 512 then 0xF3 else if a = 513 then 0x0A else 0⟩
        ⟨0⟩ ⟨fun _ => 0⟩ ⟨none⟩ 0 0 =
      some ⟨⟨fun _ => 0, 0, 512, []⟩,
        ⟨fun a => if a = 512 then 0xF3 else if a = 513 then 0x0A else 0⟩,
        ⟨0⟩, ⟨fun _ => 0⟩⟩) ∧
    (∃ out, Cpu.run_instruction 64 32 ⟨fun _ => 0, 0, 512, []⟩
        ⟨fun a => if a = 512 then 0xF3 else if a = 513 then 0x0A else 0⟩
        ⟨0⟩ ⟨fun _ => 0⟩ ⟨some 7⟩ 0 0 = some out ∧
      out.cpu.v 3 = 7 ∧ out.cpu.pc = (⟨fun _ => 0, 0, 512, []⟩ : Cpu).pc + 2) :=
  ⟨(claim10_wait_key 64 32 ⟨fun _ => 0, 0, 512, []⟩
      ⟨fun a => if a = 512 then 0xF3 else if a = 513 then 0x0A else 0⟩
      ⟨0⟩ ⟨fun _ => 0⟩ ⟨none⟩ 0 0 3 0xF3 0x0A
      (by decide) (by decide) (by decide) (by decide)).1 rfl,
   (claim10_wait_key 64 32 ⟨fun _ => 0, 0, 512, []⟩
      ⟨fun a => if a = 512 then 0xF3 else if a = 513 then 0x0A else 0⟩
      ⟨0⟩ ⟨fun _ => 0⟩ ⟨some 7⟩ 0 0 3 0xF3 0x0A
      (by decide) (by decide) (by decide) (by decide)).2 7 rfl⟩

/-! ## C4 and C5: `Screen::draw_byte` -/

/-- The buffer after `k` loop iterations is the initial buffer XORed
pointwise with the accumulated mask `drawAcc`, which does not depend on the
buffer. -/
theorem drawByteLoop_fst (W row : Nat) :
    ∀ (k : Nat) (buf : Nat → Nat) (x byte : Nat) (er : Bool) (a : Nat),
      (drawByteLoop W row k buf x byte er).1 a = buf a ^^^ drawAcc W row x byte k a := by
  intro k
  induction k with
  | zero =>
    intro buf x byte er a
    simp [drawByteLoop, drawAcc]
  | succ m ih =>
    intro buf x byte er a
    simp only [drawByteLoop, ih, drawAcc]
    by_cases hcase : a = row * W + x % W
    · subst hcase
      rw [if_pos rfl, if_pos rfl, Nat.xor_assoc]
    · rw [if_neg hcase, if_neg hcase, Nat.zero_xor]

/-- Once the erased flag is set it stays set. -/
theorem drawByteLoop_erased_true (W row : Nat) :
    ∀ (k : Nat) (buf : Nat → Nat) (x byte : Nat),
      (drawByteLoop W row k buf x byte true).2 = true := by
  intro k
  induction k with
  | zero => intro buf x byte; rfl
  | succ m ih =>
    intro buf x byte
    simp only [drawByteLoop, ite_self]
    exact ih _ _ _

/-- The XORed-in top bit is always 0 or 1. -/
theorem topBit_le_one (b : Nat) : (b &&& 128) >>> 7 = 0 ∨ (b &&& 128) >>> 7 = 1 := by
  have h1 : b &&& 128 ≤ 128 := Nat.and_le_right
  have h2 : (b &&& 128) >>> 7 = (b &&& 128) / 128 := by
    rw [Nat.shiftRight_eq_div_pow]
  omega

/-- If a monitored cell holds 1 before the loop and 0 after it, some
iteration cleared a set pixel, so the loop reports `erased = true`. -/
theorem drawByteLoop_one_to_zero (W row : Nat) :
    ∀ (k : Nat) (buf : Nat → Nat) (x byte : Nat) (er : Bool) (a : Nat),
      buf a = 1 → (drawByteLoop W row k buf x byte er).1 a = 0 →
      (drawByteLoop W row k buf x byte er).2 = true := by
  intro k
  induction k with
  | zero =>
    intro buf x byte er a h1 h0
    simp [drawByteLoop] at h0
    omega
  | succ m ih =>
    intro buf x byte er a h1 h0
    simp only [drawByteLoop] at h0 ⊢
    by_cases hai : a = row * W + x % W
    · subst hai
      rcases topBit_le_one byte with hbit | hbit
      · refine ih _ _ _ _ _ ?_ h0
        dsimp only
        rw [if_pos rfl, hbit, Nat.xor_zero]
        exact h1
      · have hcur : buf (row * W + x % W) ^^^ ((byte &&& 128) >>> 7) = 0 := by
          rw [h1, hbit]
          decide
        rw [if_pos ⟨h1, hcur⟩]
        exact drawByteLoop_erased_true W row m _ _ _
    · by_cases hb2 : buf a = 1
      · refine ih _ _ _ _ a ?_ h0
        dsimp only
        rw [if_neg hai]
        exact hb2
      · exact absurd h1 hb2

/-- C4: drawing the same byte at the same coordinates twice returns the
framebuffer exactly to its pre-draw state (XOR self-inverse), and whenever
the first call changed some pixel from 0 to 1, the second call reports
`erased = true`. -/
theorem claim4_draw_byte_involution (W H : Nat) (s : Screen) (byte x y : Nat) :
    (∀ a, (Screen.draw_byte W H (Screen.draw_byte W H s byte x y).1 byte x y).1.buffer a
      = s.buffer a) ∧
    (∀ a, s.buffer a = 0 → (Screen.draw_byte W H s byte x y).1.buffer a = 1 →
      (Screen.draw_byte W H (Screen.draw_byte W H s byte x y).1 byte x y).2 = true) := by
  constructor
  · intro a
    simp only [Screen.draw_byte]
    rw [drawByteLoop_fst, drawByteLoop_fst, Nat.xor_assoc, Nat.xor_self, Nat.xor_zero]
  · intro a h0 h1
    simp only [Screen.draw_byte] at h1 ⊢
    have hback : (drawByteLoop W (y % H) 8
        ((drawByteLoop W (y % H) 8 s.buffer x byte false).1) x byte false).1 a = 0 := by
      rw [drawByteLoop_fst, drawByteLoop_fst, Nat.xor_assoc, Nat.xor_self, Nat.xor_zero]
      exact h0
    exact drawByteLoop_one_to_zero W (y % H) 8 _ x byte false a h1 hback

/-- C4 witness: byte `0x80` at the origin of a blank 64-by-32 screen sets
pixel 0; the second identical draw reports an erasure. -/
theorem claim4_witness :
    (Screen.draw_byte 64 32 ⟨fun _ => 0⟩ 128 0 0).1.buffer 0 = 1 ∧
    (Screen.draw_byte 64 32 (Screen.draw_byte 64 32 ⟨fun _ => 0⟩ 128 0 0).1 128 0 0).2 = true :=
  ⟨by decide, (claim4_draw_byte_involution 64 32 ⟨fun _ => 0⟩ 128 0 0).2 0 rfl (by decide)⟩

/-- Adding `0 < d < W` to a canonical residue moves it: `(t + d) % W ≠ t`. -/
theorem add_mod_ne (W t d : Nat) (ht : t < W) (hd1 : 0 < d) (hd2 : d < W) :
    (t + d) % W ≠ t := by
  rcases Nat.lt_or_ge (t + d) W with h | h
  · rw [Nat.mod_eq_of_lt h]
    omega
  · have h3 : (t + d) % W = t + d - W := by
      rw [Nat.mod_eq_sub_mod h, Nat.mod_eq_of_lt (by omega)]
    omega

/-- `drawAcc` vanishes at indices hit by no iteration. -/
theorem drawAcc_miss (W row : Nat) :
    ∀ (k x byte a : Nat), (∀ j, j < k → a ≠ row * W + (x + j) % W) →
      drawAcc W row x byte k a = 0 := by
  intro k
  induction k with
  | zero => intro x byte a _; rfl
  | succ m ih =>
    intro x byte a h
    simp only [drawAcc]
    have h0 : a ≠ row * W + x % W := by
      have := h 0 (by omega)
      rwa [Nat.add_zero] at this
    rw [if_neg h0, Nat.zero_xor]
    refine ih _ _ _ ?_
    intro j hj
    have h2 := h (j + 1) (by omega)
    have heq : (x % W + 1 + j) % W = (x + (j + 1)) % W := by
      rw [Nat.add_assoc, Nat.mod_add_mod, Nat.add_comm 1 j]
    rw [heq]
    exact h2

/-- `drawAcc` at the index hit by iteration `i` is exactly the top bit of the
byte shifted left `i` times (within one 8-iteration call, no two iterations
hit the same index as long as the display is at least 8 wide). -/
theorem drawAcc_hit (W row : Nat) (hW : 8 ≤ W) :
    ∀ (k x byte i : Nat), i < k → k ≤ 8 → byte < 256 →
      drawAcc W row x byte k (row * W + (x + i) % W) =
        ((byte * 2 ^ i) % 256 &&& 128) >>> 7 := by
  intro k
  induction k with
  | zero => intro x byte i hi _ _; exact absurd hi (Nat.not_lt_zero i)
  | succ m ih =>
    intro x byte i hi hk hb
    simp only [drawAcc]
    rcases Nat.eq_zero_or_pos i with hi0 | hipos
    · subst hi0
      rw [if_pos (by rw [Nat.add_zero])]
      have hmiss : ∀ j, j < m → row * W + (x + 0) % W ≠ row * W + (x % W + 1 + j) % W := by
        intro j hj hEq
        have hne : (x % W + (1 + j)) % W ≠ x % W :=
          add_mod_ne W (x % W) (1 + j) (Nat.mod_lt x (by omega)) (by omega) (by omega)
        rw [Nat.mod_add_mod] at hne
        have h1 : (x + 0) % W = (x % W + 1 + j) % W := by omega
        rw [Nat.add_zero] at h1
        rw [Nat.add_assoc, Nat.mod_add_mod] at h1
        exact hne h1.symm
      rw [drawAcc_miss W row m (x % W + 1) ((byte <<< 1) % 256) _ hmiss, Nat.xor_zero]
      rw [pow_zero, Nat.mul_one, Nat.mod_eq_of_lt hb]
    · obtain ⟨i2, rfl⟩ : ∃ i2, i = i2 + 1 := ⟨i - 1, by omega⟩
      have hne : row * W + (x + (i2 + 1)) % W ≠ row * W + x % W := by
        have hmove : (x % W + (i2 + 1)) % W ≠ x % W :=
          add_mod_ne W (x % W) (i2 + 1) (Nat.mod_lt x (by omega)) (by omega) (by omega)
        rw [Nat.mod_add_mod] at hmove
        intro hEq
        exact hmove (by omega)
      rw [if_neg hne, Nat.zero_xor]
      have hidx : (x + (i2 + 1)) % W = (x % W + 1 + i2) % W := by
        rw [Nat.add_assoc, Nat.mod_add_mod, Nat.add_comm i2 1]
      rw [hidx]
      rw [ih (x % W + 1) ((byte <<< 1) % 256) i2 (by omega) (by omega) (Nat.mod_lt _ (by omega))]
      have hb2 : ((byte <<< 1) % 256) * 2 ^ i2 % 256 = byte * 2 ^ (i2 + 1) % 256 := by
        rw [Nat.shiftLeft_eq, Nat.mod_mul_mod]
        congr 1
        ring
      rw [hb2]

set_option maxRecDepth 100000 in
/-- For an 8-bit byte the top bit after `i` left shifts is bit `7 - i`,
most-significant first. -/
theorem topBitShifted_eq_bit :
    ∀ b, b < 256 → ∀ i, i < 8 →
      ((b * 2 ^ i) % 256 &&& 128) >>> 7 = (b >>> (7 - i)) &&& 1 := by
  decide

/-- C5: `draw_byte(b, x, y)` XORs bit `i` of `b` (most-significant first)
into the pixel at column `(x + i) % W`, row `y % H`; with `x = W - 1` this
places bit 0 in the rightmost column and bits 1..7 in columns 0..6. -/
theorem claim5_draw_byte_placement (W H : Nat) (s : Screen) (byte x y i : Nat)
    (hW : 8 ≤ W) (hi : i < 8) (hbyte : byte < 256) :
    (Screen.draw_byte W H s byte x y).1.buffer ((y % H) * W + (x + i) % W) =
      s.buffer ((y % H) * W + (x + i) % W) ^^^ ((byte >>> (7 - i)) &&& 1) := by
  simp only [Screen.draw_byte]
  rw [drawByteLoop_fst]
  rw [drawAcc_hit W (y % H) hW 8 x byte i hi (by omega) hbyte]
  rw [topBitShifted_eq_bit byte hbyte i hi]

/-- C5 witness: byte `0xC0` drawn at `x = 63` on a blank 64-by-32 screen —
bit 0 lands in column 63 and bit 1 in column 0 of row 0. -/
theorem claim5_witness :
    (Screen.draw_byte 64 32 ⟨fun _ => 0⟩ 0xC0 63 0).1.buffer ((0 % 32) * 64 + (63 + 0) % 64) =
      (fun _ => (0 : Nat)) ((0 % 32) * 64 + (63 + 0) % 64) ^^^ ((0xC0 >>> (7 - 0)) &&& 1) ∧
    (Screen.draw_byte 64 32 ⟨fun _ => 0⟩ 0xC0 63 0).1.buffer ((0 % 32) * 64 + (63 + 1) % 64) =
      (fun _ => (0 : Nat)) ((0 % 32) * 64 + (63 + 1) % 64) ^^^ ((0xC0 >>> (7 - 1)) &&& 1) :=
  ⟨claim5_draw_byte_placement 64 32 ⟨fun _ => 0⟩ 0xC0 63 0 0 (by decide) (by decide) (by decide),
   claim5_draw_byte_placement 64 32 ⟨fun _ => 0⟩ 0xC0 63 0 1 (by decide) (by decide) (by decide)⟩
